import Mathlib

/-!
Shallow embedding of `src/index.js` (pixi-dom).

The program overlays draggable HTML elements (`DraggableNode`) on a pannable
pixi canvas (`PannableCanvas`).  The `worldContainer` is a pure translation:
its `toGlobal` / `toLocal` transforms add / subtract the container offset.
Coordinates are modelled over `ℚ` (the JS numbers are doubles; all the
operations here are exact affine arithmetic and comparisons, so `ℚ` is
faithful on every input that has no rounding).

State that matters to the claims:
  * each `DraggableNode` owns `worldPosition`, `dragOffset`, the
    `anchorMarker` position, the `isDragging` closure flag, its DOM footprint
    (`clientWidth`/`clientHeight`) and its DOM placement (`style.left/top`);
  * the `PannableCanvas` owns the `worldContainer` offset, the node list,
    the panning flags, `lastPosition`, the `app.screen` rectangle and the
    DOM-container rectangle origin used by `update`.

Event handlers become functions on this state; an `Op` type and a `step`
function give the event-interleaving semantics.
-/

/-- A pixi `Point`: a pair of coordinates. -/
structure Point where
  x : ℚ
  y : ℚ
  deriving DecidableEq, Repr

/-- Componentwise addition of points (used for offsets). -/
def Point.add (p q : Point) : Point := ⟨p.x + q.x, p.y + q.y⟩

/-- Componentwise subtraction of points. -/
def Point.sub (p q : Point) : Point := ⟨p.x - q.x, p.y - q.y⟩

/-- A pixi `Rectangle`, as returned by `app.screen`: origin plus size.
pixi's `Application` always reports `app.screen = Rectangle(0, 0, w, h)`. -/
structure Rectangle where
  x : ℚ
  y : ℚ
  width : ℚ
  height : ℚ
  deriving DecidableEq, Repr

/-- `worldContainer.toGlobal(worldPoint)`: the container only translates
(no scale / rotation), so the screen point is the world point plus the
container offset `(worldContainer.x, worldContainer.y)`. -/
def toGlobal (offset p : Point) : Point := ⟨p.x + offset.x, p.y + offset.y⟩

/-- `worldContainer.toLocal(screenPoint)`: inverse of `toGlobal`; the world
point is the screen point minus the container offset. -/
def toLocal (offset p : Point) : Point := ⟨p.x - offset.x, p.y - offset.y⟩

/-- The per-axis clamp of `onDragMove`:
`Math.max(lo, Math.min(v, hi))` with `lo = canvasBounds.x` (resp. `.y`) and
`hi = canvasBounds.width - nodeWidth` (resp. height / nodeHeight). -/
def clampAxis (lo v hi : ℚ) : ℚ := max lo (min v hi)

/-- The mutable state of one `DraggableNode`:
`worldPosition` and `dragOffset` are the constructor's two `Point`s,
`anchorMarker` is the marker's `position`, `isDragging` the closure flag of
`_attachEventListeners`, `clientWidth`/`clientHeight` the DOM footprint read
by `onDragMove`, and `domLeft`/`domTop` the `style.left`/`style.top` written
by `update`. -/
structure DraggableNode where
  worldPosition : Point
  dragOffset : Point
  anchorMarker : Point
  isDragging : Bool
  clientWidth : ℚ
  clientHeight : ℚ
  domLeft : ℚ
  domTop : ℚ
  deriving DecidableEq, Repr

/-- The `DraggableNode` constructor (with `_setupAnchor`): world position from
the arguments, `dragOffset = new Point()` (the origin), the anchor marker
copied from the world position, not dragging. The DOM footprint `w × h` stands
for the created element's `clientWidth × clientHeight`. -/
def DraggableNode.create (x y w h : ℚ) : DraggableNode :=
  { worldPosition := ⟨x, y⟩
    dragOffset := ⟨0, 0⟩
    anchorMarker := ⟨x, y⟩
    isDragging := false
    clientWidth := w
    clientHeight := h
    domLeft := 0
    domTop := 0 }

/-- The `mousedown` listener of `_attachEventListeners`: sets `isDragging`,
records `dragOffset = toLocal(mouseScreenPos) - worldPosition`.
`offset` is the current `worldContainer` offset, `client` the event's
`(clientX, clientY)`. -/
def DraggableNode.mousedown (offset : Point) (n : DraggableNode)
    (client : Point) : DraggableNode :=
  let mouseWorldPos := toLocal offset client
  { n with
    isDragging := true
    dragOffset := ⟨mouseWorldPos.x - n.worldPosition.x,
                   mouseWorldPos.y - n.worldPosition.y⟩ }

/-- The proposed world position computed by `onDragMove`:
`toLocal(clientX, clientY)` minus the recorded drag offset. -/
def proposedWorldPos (offset dragOffset client : Point) : Point :=
  let mouseWorldPos := toLocal offset client
  ⟨mouseWorldPos.x - dragOffset.x, mouseWorldPos.y - dragOffset.y⟩

/-- The `onDragMove` handler: guard on `isDragging`; compute the proposed
world position; convert to screen space; clamp each axis to the canvas bounds
(`max(bounds.x, min(-, bounds.width - nodeWidth))` and likewise for y);
convert back to world space; commit to `worldPosition` and copy it onto the
anchor marker. `scr` is `this.canvas.app.screen`. -/
def DraggableNode.onDragMove (offset : Point) (scr : Rectangle)
    (n : DraggableNode) (client : Point) : DraggableNode :=
  if n.isDragging then
    let proposed := proposedWorldPos offset n.dragOffset client
    let proposedScreenPos := toGlobal offset proposed
    let nodeWidth := n.clientWidth
    let nodeHeight := n.clientHeight
    let clampedScreenX :=
      clampAxis scr.x proposedScreenPos.x (scr.width - nodeWidth)
    let clampedScreenY :=
      clampAxis scr.y proposedScreenPos.y (scr.height - nodeHeight)
    let finalWorldPos := toLocal offset ⟨clampedScreenX, clampedScreenY⟩
    { n with worldPosition := finalWorldPos, anchorMarker := finalWorldPos }
  else n

/-- The `mouseup` (`onDragEnd`) handler: clears `isDragging`; the drag offset
point itself is not reset by the code. -/
def DraggableNode.onDragEnd (n : DraggableNode) : DraggableNode :=
  { n with isDragging := false }

/-- The per-frame `update`: places the DOM element at
`toGlobal(worldPosition) - containerRect.(left, top)` and leaves every other
field alone (the text update has no modelled effect on the state). -/
def DraggableNode.update (offset containerRect : Point)
    (n : DraggableNode) : DraggableNode :=
  let screenPos := toGlobal offset n.worldPosition
  { n with
    domLeft := screenPos.x - containerRect.x
    domTop := screenPos.y - containerRect.y }

/-- The state of the `PannableCanvas`: the `worldContainer` offset, the node
list, the panning flags and `lastPosition`, `app.screen`, and the origin of
`domContainer.getBoundingClientRect()` used by `update`. -/
structure PannableCanvas where
  worldContainer : Point
  nodes : List DraggableNode
  isPanning : Bool
  isSpacebarDown : Bool
  lastPosition : Point
  screen : Rectangle
  containerRect : Point
  deriving DecidableEq, Repr

/-- The stage `pointerdown` handler: starts panning only while the spacebar
is held, re-anchoring `lastPosition` at the pointer's global position. -/
def PannableCanvas.pointerdown (c : PannableCanvas) (global : Point) :
    PannableCanvas :=
  if c.isSpacebarDown then
    { c with isPanning := true, lastPosition := global }
  else c

/-- The stage `pointermove` handler: while panning, translate the
`worldContainer` by the pointer's delta since the last move and re-anchor
`lastPosition`. -/
def PannableCanvas.pointermove (c : PannableCanvas) (global : Point) :
    PannableCanvas :=
  if c.isPanning then
    let dx := global.x - c.lastPosition.x
    let dy := global.y - c.lastPosition.y
    { c with
      worldContainer := ⟨c.worldContainer.x + dx, c.worldContainer.y + dy⟩
      lastPosition := global }
  else c

/-- The stage `pointerup` / `pointerupoutside` handler (`stopPanning`). -/
def PannableCanvas.pointerup (c : PannableCanvas) : PannableCanvas :=
  { c with isPanning := false }

/-- The window `keydown` handler for `Space`. -/
def PannableCanvas.keydownSpace (c : PannableCanvas) : PannableCanvas :=
  { c with isSpacebarDown := true }

/-- The window `keyup` handler for `Space`. -/
def PannableCanvas.keyupSpace (c : PannableCanvas) : PannableCanvas :=
  { c with isSpacebarDown := false }

/-- Apply a function to the node at index `i`, leaving all others alone: the
dispatch of a DOM event to the listeners of one node's own element. -/
def modifyIdx (l : List DraggableNode) (i : Nat)
    (f : DraggableNode → DraggableNode) : List DraggableNode :=
  match l, i with
  | [], _ => []
  | n :: rest, 0 => f n :: rest
  | n :: rest, Nat.succ k => n :: modifyIdx rest k f

/-- The events the claims are about, each dispatched to the handler the code
attaches for it.  Drag events carry the index of the node whose listeners
receive them (each node's `mousedown` listener sits on its own element, and
its `mousemove`/`mouseup` listeners exist only during its own drag). -/
inductive Op where
  | mousedownOn (i : Nat) (client : Point)
  | mousemoveDrag (i : Nat) (client : Point)
  | mouseupDrag (i : Nat)
  | keydownSpace
  | keyupSpace
  | pointerdown (global : Point)
  | pointermove (global : Point)
  | pointerup
  | frameTick
  | createNode (x y w h : ℚ)
  deriving DecidableEq, Repr

/-- One event step of the whole system. `frameTick` is the ticker callback
(`update` on every node in registration order); `createNode` is the factory
method pushing a fresh node. -/
def step (c : PannableCanvas) (op : Op) : PannableCanvas :=
  match op with
  | .mousedownOn i client =>
      let f := fun n => DraggableNode.mousedown c.worldContainer n client
      { c with nodes := modifyIdx c.nodes i f }
  | .mousemoveDrag i client =>
      let f := fun n => DraggableNode.onDragMove c.worldContainer c.screen n client
      { c with nodes := modifyIdx c.nodes i f }
  | .mouseupDrag i =>
      { c with nodes := modifyIdx c.nodes i DraggableNode.onDragEnd }
  | .keydownSpace => c.keydownSpace
  | .keyupSpace => c.keyupSpace
  | .pointerdown g => c.pointerdown g
  | .pointermove g => c.pointermove g
  | .pointerup => c.pointerup
  | .frameTick =>
      let u := DraggableNode.update c.worldContainer c.containerRect
      { c with nodes := c.nodes.map u }
  | .createNode x y w h =>
      { c with nodes := c.nodes ++ [DraggableNode.create x y w h] }

/-- Run a sequence of events. -/
def run (c : PannableCanvas) (ops : List Op) : PannableCanvas :=
  ops.foldl step c

/-- `app.screen` after `init({ width: 600, height: 700 })`:
pixi reports the rectangle `(0, 0, 600, 700)`. -/
def screen600x700 : Rectangle := ⟨0, 0, 600, 700⟩

/-- The canvas right after `init`: identity offset, no nodes, no gesture in
progress, 600×700 screen, DOM container at the page origin. -/
def initialCanvas : PannableCanvas :=
  { worldContainer := ⟨0, 0⟩
    nodes := []
    isPanning := false
    isSpacebarDown := false
    lastPosition := ⟨0, 0⟩
    screen := screen600x700
    containerRect := ⟨0, 0⟩ }

/-- The screen projection of node `i`'s stored world position under the
current pan offset. -/
def nodeProjection (c : PannableCanvas) (i : Nat) : Option Point :=
  (c.nodes.get? i).map (fun n => toGlobal c.worldContainer n.worldPosition)

/-! ### Helper lemmas -/

theorem toGlobal_toLocal (offset p : Point) :
    toGlobal offset (toLocal offset p) = p := by
  cases p
  simp only [toGlobal, toLocal, Point.mk.injEq]
  constructor <;> ring

theorem toLocal_toGlobal (offset p : Point) :
    toLocal offset (toGlobal offset p) = p := by
  cases p
  simp only [toGlobal, toLocal, Point.mk.injEq]
  constructor <;> ring

theorem clampAxis_lower (lo v hi : ℚ) : lo ≤ clampAxis lo v hi :=
  le_max_left lo (min v hi)

theorem clampAxis_upper (lo v hi : ℚ) (h : lo ≤ hi) : clampAxis lo v hi ≤ hi :=
  max_le h (min_le_right v hi)

theorem clampAxis_inverted (lo v hi : ℚ) (h : hi ≤ lo) : clampAxis lo v hi = lo :=
  max_eq_left (le_trans (min_le_right v hi) h)

theorem clampAxis_of_ge (lo v hi : ℚ) (hlo : lo ≤ hi) (hv : hi ≤ v) :
    clampAxis lo v hi = hi := by
  unfold clampAxis
  rw [min_eq_right hv]
  exact max_eq_right hlo

theorem run_cons (c : PannableCanvas) (op : Op) (ops : List Op) :
    run c (op :: ops) = run (step c op) ops := rfl

theorem modifyIdx_get?_ne (l : List DraggableNode) (i j : Nat)
    (f : DraggableNode → DraggableNode) (h : j ≠ i) :
    (modifyIdx l i f).get? j = l.get? j := by
  induction l generalizing i j with
  | nil => simp [modifyIdx]
  | cons n rest ih =>
    cases i with
    | zero =>
      cases j with
      | zero => exact absurd rfl h
      | succ k => simp [modifyIdx]
    | succ m =>
      cases j with
      | zero => simp [modifyIdx]
      | succ k =>
        simpa [modifyIdx] using ih m k (fun hk => h (by simp [hk]))

theorem modifyIdx_forall {P : DraggableNode → Prop} (l : List DraggableNode)
    (i : Nat) (f : DraggableNode → DraggableNode)
    (hl : ∀ n ∈ l, P n) (hf : ∀ n, P n → P (f n)) :
    ∀ n ∈ modifyIdx l i f, P n := by
  induction l generalizing i with
  | nil => intro n hn; simp [modifyIdx] at hn
  | cons m rest ih =>
    cases i with
    | zero =>
      intro n hn
      simp only [modifyIdx] at hn
      rcases List.mem_cons.mp hn with h1 | h2
      · exact h1 ▸ hf m (hl m (List.mem_cons_self _ _))
      · exact hl n (List.mem_cons_of_mem _ h2)
    | succ k =>
      intro n hn
      simp only [modifyIdx] at hn
      rcases List.mem_cons.mp hn with h1 | h2
      · exact h1 ▸ hl m (List.mem_cons_self _ _)
      · exact ih k (fun o ho => hl o (List.mem_cons_of_mem _ ho)) n h2

/-! ### Claim theorems -/

/-- C3: for every point `p` and every pan offset, `toGlobal (toLocal p) = p`
and `toLocal (toGlobal p) = p`: the world-to-screen mapping is the pure
translation `screen = world + offset`, so the two transforms are exact
inverses (exactly, over `ℚ`). -/
theorem transforms_are_inverse_translations (offset p : Point) :
    toGlobal offset (toLocal offset p) = p ∧
    toLocal offset (toGlobal offset p) = p ∧
    toGlobal offset p = Point.add p offset :=
  ⟨toGlobal_toLocal offset p, toLocal_toGlobal offset p, rfl⟩

/-- C6: `mousedown` records `dragOffset` as the pointer's world position
minus the element's current world position (leaving the world position
itself untouched), and each drag move's proposed world position is the
pointer's world position minus the recorded drag offset. -/
theorem drag_offset_recorded_and_used (n : DraggableNode)
    (offset client client2 d : Point) :
    (DraggableNode.mousedown offset n client).dragOffset
        = Point.sub (toLocal offset client) n.worldPosition ∧
    (DraggableNode.mousedown offset n client).worldPosition = n.worldPosition ∧
    (DraggableNode.mousedown offset n client).isDragging = true ∧
    proposedWorldPos offset d client2 = Point.sub (toLocal offset client2) d :=
  ⟨rfl, rfl, rfl, rfl⟩

/-- C4: a pan step (stage `pointermove` while `isPanning`) leaves every
node's state — in particular its stored world position — unchanged, and only
translates the pan offset by the pointer delta; consequently every world
point's screen projection is translated by exactly that delta. -/
theorem pan_step_preserves_world_positions (c : PannableCanvas) (g : Point)
    (h : c.isPanning = true) :
    (c.pointermove g).nodes = c.nodes ∧
    (c.pointermove g).worldContainer
        = Point.add c.worldContainer (Point.sub g c.lastPosition) ∧
    ∀ p : Point, toGlobal (c.pointermove g).worldContainer p
        = Point.add (toGlobal c.worldContainer p) (Point.sub g c.lastPosition) := by
  refine ⟨?_, ?_, ?_⟩
  · simp [PannableCanvas.pointermove, h]
  · simp only [PannableCanvas.pointermove, h, if_true]
    simp [Point.add, Point.sub]
  · intro p
    simp only [PannableCanvas.pointermove, h, if_true]
    cases p
    simp only [toGlobal, Point.add, Point.sub, Point.mk.injEq]
    constructor <;> ring

/-- Witness for C4 at a concrete panning canvas and pointer position. -/
theorem pan_step_preserves_world_positions_witness :
    ({ initialCanvas with isPanning := true }.pointermove ⟨50, 20⟩).nodes
        = ({ initialCanvas with isPanning := true } : PannableCanvas).nodes :=
  (pan_step_preserves_world_positions { initialCanvas with isPanning := true }
    ⟨50, 20⟩ rfl).1

/-- C9: the per-frame refresh is idempotent: running `frameTick` twice with
no intervening state change yields exactly the same canvas state — hence the
same screen placement — as running it once. -/
theorem refresh_idempotent (c : PannableCanvas) :
    run c [Op.frameTick, Op.frameTick] = run c [Op.frameTick] := by
  have hu : ∀ n, DraggableNode.update c.worldContainer c.containerRect
      (DraggableNode.update c.worldContainer c.containerRect n)
      = DraggableNode.update c.worldContainer c.containerRect n :=
    fun _ => rfl
  simp only [run, List.foldl, step, List.map_map]
  exact congrArg (fun l => { c with nodes := l })
    (List.map_congr_left (fun n _ => hu n))

/-- The committed drag position in the words of the spec, for comparison with
`onDragMove`: proposed world position = pointer world position − drag offset;
converted to screen space; each axis clamped to
`[viewportOrigin, viewportOrigin + viewportSize − elementFootprint]`;
converted back to world space. -/
def specCommittedWorldPos (offset viewOrigin viewSize footprint dragOffset
    client : Point) : Point :=
  let pointerWorld := toLocal offset client
  let proposed := Point.sub pointerWorld dragOffset
  let proposedScreen := toGlobal offset proposed
  let cx := clampAxis viewOrigin.x proposedScreen.x
      (viewOrigin.x + viewSize.x - footprint.x)
  let cy := clampAxis viewOrigin.y proposedScreen.y
      (viewOrigin.y + viewSize.y - footprint.y)
  toLocal offset ⟨cx, cy⟩

/-- C1: while dragging, `onDragMove` commits exactly the spec's clamped
position (the code clamps to `[bounds.x, bounds.width - nodeWidth]`, which is
the spec's `[origin, origin + size - footprint]` since pixi's `app.screen`
has origin `(0, 0)`); and when the pointer-derived screen x reaches past the
right edge, the committed position's screen x is
`viewportWidth - footprintWidth`, not the raw pointer-derived value. -/
theorem drag_move_commits_spec_clamped_position (offset client : Point)
    (scr : Rectangle) (n : DraggableNode) (hd : n.isDragging = true)
    (hx : scr.x = 0) (hy : scr.y = 0) :
    (DraggableNode.onDragMove offset scr n client).worldPosition
        = specCommittedWorldPos offset ⟨scr.x, scr.y⟩ ⟨scr.width, scr.height⟩
            ⟨n.clientWidth, n.clientHeight⟩ n.dragOffset client ∧
    (n.clientWidth ≤ scr.width →
      scr.width - n.clientWidth
          ≤ (toGlobal offset (proposedWorldPos offset n.dragOffset client)).x →
      (toGlobal offset
            (DraggableNode.onDragMove offset scr n client).worldPosition).x
          = scr.width - n.clientWidth) := by
  constructor
  · simp only [DraggableNode.onDragMove, hd, if_true, specCommittedWorldPos,
      proposedWorldPos, Point.sub]
    rw [hx, hy]
    norm_num
  · intro hw hge
    simp only [DraggableNode.onDragMove, hd, if_true]
    rw [toGlobal_toLocal]
    exact clampAxis_of_ge _ _ _ (hx ▸ sub_nonneg.mpr hw) hge

/-- A concrete node mid-drag: created at world `(100, 75)` with footprint
`100 × 40`, then grabbed at client `(100, 75)` with the identity offset. -/
def draggingNodeA : DraggableNode :=
  DraggableNode.mousedown ⟨0, 0⟩ (DraggableNode.create 100 75 100 40) ⟨100, 75⟩

/-- Witness for C1 at the concrete dragging node and a pointer far past the
right viewport edge. -/
theorem drag_move_commits_spec_clamped_position_witness :
    (DraggableNode.onDragMove ⟨0, 0⟩ screen600x700 draggingNodeA
        ⟨10000, 75⟩).worldPosition
        = specCommittedWorldPos ⟨0, 0⟩ ⟨screen600x700.x, screen600x700.y⟩
            ⟨screen600x700.width, screen600x700.height⟩
            ⟨draggingNodeA.clientWidth, draggingNodeA.clientHeight⟩
            draggingNodeA.dragOffset ⟨10000, 75⟩ ∧
    (draggingNodeA.clientWidth ≤ screen600x700.width →
      screen600x700.width - draggingNodeA.clientWidth
          ≤ (toGlobal ⟨0, 0⟩ (proposedWorldPos ⟨0, 0⟩ draggingNodeA.dragOffset
              ⟨10000, 75⟩)).x →
      (toGlobal ⟨0, 0⟩
            (DraggableNode.onDragMove ⟨0, 0⟩ screen600x700 draggingNodeA
              ⟨10000, 75⟩).worldPosition).x
          = screen600x700.width - draggingNodeA.clientWidth) :=
  drag_move_commits_spec_clamped_position ⟨0, 0⟩ ⟨10000, 75⟩ screen600x700
    draggingNodeA rfl rfl rfl

/-- C7: the per-axis clamp `max lo (min v hi)` is total over `ℚ` (no NaN can
arise in the model) and, whenever the bounds invert or collapse
(`hi ≤ lo`, covering a zero-size viewport, a zero-size element, and a
footprint exceeding the viewport), it deterministically returns the lower
bound; consequently `onDragMove` then commits the screen point
`(bounds.x, bounds.y)`, the viewport origin. -/
theorem clamp_degenerate_falls_to_lower_bound (lo v hi : ℚ)
    (offset client : Point) (scr : Rectangle) (n : DraggableNode)
    (hinv : hi ≤ lo) (hd : n.isDragging = true)
    (hw : scr.width - n.clientWidth ≤ scr.x)
    (hh : scr.height - n.clientHeight ≤ scr.y) :
    clampAxis lo v hi = lo ∧
    toGlobal offset
        (DraggableNode.onDragMove offset scr n client).worldPosition
      = ⟨scr.x, scr.y⟩ := by
  refine ⟨clampAxis_inverted lo v hi hinv, ?_⟩
  simp only [DraggableNode.onDragMove, hd, if_true]
  rw [toGlobal_toLocal, clampAxis_inverted _ _ _ hw, clampAxis_inverted _ _ _ hh]

/-- A concrete dragging node whose `640 × 800` footprint exceeds the 600×700
viewport on both axes. -/
def oversizedDraggingNode : DraggableNode :=
  DraggableNode.mousedown ⟨0, 0⟩ (DraggableNode.create 0 0 640 800) ⟨5, 5⟩

/-- Witness for C7: inverted bounds `[5, 3]` and the oversized node. -/
theorem clamp_degenerate_falls_to_lower_bound_witness :
    clampAxis 5 99 3 = 5 ∧
    toGlobal ⟨0, 0⟩
        (DraggableNode.onDragMove ⟨0, 0⟩ screen600x700 oversizedDraggingNode
          ⟨250, 250⟩).worldPosition
      = ⟨screen600x700.x, screen600x700.y⟩ :=
  clamp_degenerate_falls_to_lower_bound 5 99 3 ⟨0, 0⟩ ⟨250, 250⟩ screen600x700
    oversizedDraggingNode (by norm_num) rfl
    (by norm_num [screen600x700, oversizedDraggingNode, DraggableNode.mousedown,
      DraggableNode.create])
    (by norm_num [screen600x700, oversizedDraggingNode, DraggableNode.mousedown,
      DraggableNode.create])

/-- A drag gesture whose move is clamped at the right edge: grab the
`100 × 40` node at `(100, 75)` and drag the pointer to client x `10000`. -/
def clampedDragOps : List Op :=
  [Op.createNode 100 75 100 40, Op.mousedownOn 0 ⟨100, 75⟩,
   Op.mousemoveDrag 0 ⟨10000, 75⟩, Op.mouseupDrag 0]

/-- The canvas right after the clamped drag commit. -/
def afterClampedDrag : PannableCanvas := run initialCanvas clampedDragOps

/-- The same canvas after additionally panning by `(+200, 0)`. -/
def afterClampedDragAndPan : PannableCanvas :=
  run afterClampedDrag
    [Op.keydownSpace, Op.pointerdown ⟨0, 0⟩, Op.pointermove ⟨200, 0⟩]

/-- C2 counterexample: after a clamped drag commit (screen projection
`(500, 75)`, inside `[0, 600 - 100] × [0, 700 - 40]`), a subsequent pan of
`(+200, 0)` leaves the stored world position projecting to `(700, 75)` under
the new pan offset — outside the claimed per-axis interval, whose x upper
bound is `0 + 600 - 100 = 500 < 700`. -/
theorem pan_after_clamped_commit_escapes_viewport :
    nodeProjection afterClampedDrag 0 = some ⟨500, 75⟩ ∧
    nodeProjection afterClampedDragAndPan 0 = some ⟨700, 75⟩ ∧
    screen600x700.x + screen600x700.width - 100 < 700 := by
  refine ⟨?_, ?_, by norm_num [screen600x700]⟩ <;>
    simp [afterClampedDragAndPan, afterClampedDrag, clampedDragOps, run, step,
      initialCanvas, screen600x700, nodeProjection, modifyIdx,
      DraggableNode.create, DraggableNode.mousedown, DraggableNode.onDragMove,
      DraggableNode.onDragEnd, proposedWorldPos, toLocal, toGlobal, clampAxis,
      PannableCanvas.keydownSpace, PannableCanvas.pointerdown,
      PannableCanvas.pointermove, Point.add, Point.sub, min_def, max_def] <;>
    norm_num

/-- C2 amended: immediately after a drag-move commit — under the pan offset at
commit time — the committed world position's screen projection lies within
`[viewportOrigin, viewportOrigin + viewportSize - footprint]` on each axis,
for a viewport that is non-degenerate relative to the footprint; a later pan
translates the projection without touching the stored position and may move
it out of these bounds. -/
theorem clamped_commit_projection_in_bounds (offset client : Point)
    (scr : Rectangle) (n : DraggableNode) (hd : n.isDragging = true)
    (hx : scr.x ≤ scr.width - n.clientWidth)
    (hy : scr.y ≤ scr.height - n.clientHeight) :
    scr.x ≤ (toGlobal offset
        (DraggableNode.onDragMove offset scr n client).worldPosition).x ∧
    (toGlobal offset
        (DraggableNode.onDragMove offset scr n client).worldPosition).x
      ≤ scr.width - n.clientWidth ∧
    scr.y ≤ (toGlobal offset
        (DraggableNode.onDragMove offset scr n client).worldPosition).y ∧
    (toGlobal offset
        (DraggableNode.onDragMove offset scr n client).worldPosition).y
      ≤ scr.height - n.clientHeight := by
  simp only [DraggableNode.onDragMove, hd, if_true, toGlobal_toLocal]
  exact ⟨clampAxis_lower _ _ _, clampAxis_upper _ _ _ hx,
    clampAxis_lower _ _ _, clampAxis_upper _ _ _ hy⟩

/-- Witness for the amended C2 at the concrete dragging node. -/
theorem clamped_commit_projection_in_bounds_witness :
    screen600x700.x ≤ (toGlobal ⟨0, 0⟩
        (DraggableNode.onDragMove ⟨0, 0⟩ screen600x700 draggingNodeA
          ⟨10000, 75⟩).worldPosition).x ∧
    (toGlobal ⟨0, 0⟩
        (DraggableNode.onDragMove ⟨0, 0⟩ screen600x700 draggingNodeA
          ⟨10000, 75⟩).worldPosition).x
      ≤ screen600x700.width - draggingNodeA.clientWidth ∧
    screen600x700.y ≤ (toGlobal ⟨0, 0⟩
        (DraggableNode.onDragMove ⟨0, 0⟩ screen600x700 draggingNodeA
          ⟨10000, 75⟩).worldPosition).y ∧
    (toGlobal ⟨0, 0⟩
        (DraggableNode.onDragMove ⟨0, 0⟩ screen600x700 draggingNodeA
          ⟨10000, 75⟩).worldPosition).y
      ≤ screen600x700.height - draggingNodeA.clientHeight :=
  clamped_commit_projection_in_bounds ⟨0, 0⟩ ⟨10000, 75⟩ screen600x700
    draggingNodeA rfl
    (by norm_num [screen600x700, draggingNodeA, DraggableNode.mousedown,
      DraggableNode.create])
    (by norm_num [screen600x700, draggingNodeA, DraggableNode.mousedown,
      DraggableNode.create])

/-- The spec's concrete scenario: 600×700 viewport, one node with footprint
`100 × 40` at world `(100, 75)`, pan offset `(0, 0)`, one frame rendered. -/
def scenarioStart : PannableCanvas :=
  run initialCanvas [Op.createNode 100 75 100 40, Op.frameTick]

/-- The scenario after a single pan step of `(+50, +20)` and another frame. -/
def scenarioPanned : PannableCanvas :=
  run scenarioStart
    [Op.keydownSpace, Op.pointerdown ⟨40, 60⟩, Op.pointermove ⟨90, 80⟩,
     Op.frameTick]

/-- C5: in the concrete 600×700 scenario the frame update places the element
at screen `(100, 75)`; after panning by `(+50, +20)` the placement becomes
`(150, 95)` while the stored world position stays `(100, 75)`. -/
theorem scenario_pan_moves_placement_not_world :
    scenarioStart.screen = screen600x700 ∧
    (scenarioStart.nodes.get? 0).map
        (fun n => (n.clientWidth, n.clientHeight)) = some (100, 40) ∧
    (scenarioStart.nodes.get? 0).map
        (fun n => (n.domLeft, n.domTop)) = some (100, 75) ∧
    (scenarioPanned.nodes.get? 0).map
        (fun n => (n.domLeft, n.domTop)) = some (150, 95) ∧
    (scenarioPanned.nodes.get? 0).map
        (fun n => n.worldPosition) = some ⟨100, 75⟩ := by
  refine ⟨rfl, ?_, ?_, ?_, ?_⟩ <;>
    simp [scenarioPanned, scenarioStart, run, step, initialCanvas,
      screen600x700, modifyIdx, DraggableNode.create, DraggableNode.update,
      PannableCanvas.keydownSpace, PannableCanvas.pointerdown,
      PannableCanvas.pointermove, toGlobal, toLocal, Point.add, Point.sub] <;>
    norm_num

/-- The node index a drag event is delivered to, if the event is part of a
drag gesture: each node's `mousedown` listener sits on its own DOM element,
and its `mousemove`/`mouseup` listeners exist only during its own drag. -/
def Op.dragTarget : Op → Option Nat
  | .mousedownOn i _ => some i
  | .mousemoveDrag i _ => some i
  | .mouseupDrag i => some i
  | _ => none

/-- C8: any interleaving of drag events delivered to node `i` leaves every
other node `j` — its world position and drag offset included — exactly
unchanged: the per-instance state gives no cross-interference. -/
theorem drag_ops_no_cross_interference (c : PannableCanvas) (ops : List Op)
    (i j : Nat) (hij : j ≠ i)
    (hops : ∀ op ∈ ops, Op.dragTarget op = some i) :
    (run c ops).nodes.get? j = c.nodes.get? j := by
  revert hops
  induction ops generalizing c with
  | nil => intro _; rfl
  | cons op rest ih =>
    intro hops
    have hop := hops op (List.mem_cons_self _ _)
    have hstep : (step c op).nodes.get? j = c.nodes.get? j := by
      cases op with
      | mousedownOn k client =>
        have hk : k = i := by simpa [Op.dragTarget] using hop
        subst hk
        simpa [step] using modifyIdx_get?_ne c.nodes k j _ hij
      | mousemoveDrag k client =>
        have hk : k = i := by simpa [Op.dragTarget] using hop
        subst hk
        simpa [step] using modifyIdx_get?_ne c.nodes k j _ hij
      | mouseupDrag k =>
        have hk : k = i := by simpa [Op.dragTarget] using hop
        subst hk
        simpa [step] using modifyIdx_get?_ne c.nodes k j _ hij
      | keydownSpace => simp [Op.dragTarget] at hop
      | keyupSpace => simp [Op.dragTarget] at hop
      | pointerdown g => simp [Op.dragTarget] at hop
      | pointermove g => simp [Op.dragTarget] at hop
      | pointerup => simp [Op.dragTarget] at hop
      | frameTick => simp [Op.dragTarget] at hop
      | createNode x y w h => simp [Op.dragTarget] at hop
    rw [run_cons, ih (step c op) (fun o ho => hops o (List.mem_cons_of_mem _ ho)),
      hstep]

/-- A canvas holding two independent nodes. -/
def twoNodeCanvas : PannableCanvas :=
  run initialCanvas
    [Op.createNode 100 75 100 40, Op.createNode 300 200 80 30]

/-- Witness for C8: a full drag gesture on node 0 leaves node 1 unchanged. -/
theorem drag_ops_no_cross_interference_witness :
    (run twoNodeCanvas [Op.mousedownOn 0 ⟨100, 75⟩,
        Op.mousemoveDrag 0 ⟨150, 90⟩, Op.mouseupDrag 0]).nodes.get? 1
      = twoNodeCanvas.nodes.get? 1 :=
  drag_ops_no_cross_interference twoNodeCanvas
    [Op.mousedownOn 0 ⟨100, 75⟩, Op.mousemoveDrag 0 ⟨150, 90⟩,
     Op.mouseupDrag 0] 0 1 one_ne_zero
    (by
      intro op hop
      simp only [List.mem_cons, List.not_mem_nil, or_false] at hop
      rcases hop with rfl | rfl | rfl <;> rfl)

/-- The anchor-marker invariant: every live node's world-space marker sits
exactly at its stored world position. -/
def MarkerInv (c : PannableCanvas) : Prop :=
  ∀ n ∈ c.nodes, n.anchorMarker = n.worldPosition

/-- Every single event step preserves the anchor-marker invariant. -/
theorem step_preserves_MarkerInv (c : PannableCanvas) (op : Op)
    (h : MarkerInv c) : MarkerInv (step c op) := by
  cases op with
  | mousedownOn i client =>
    exact modifyIdx_forall c.nodes i _ h (fun n hn => hn)
  | mousemoveDrag i client =>
    refine modifyIdx_forall c.nodes i _ h (fun n hn => ?_)
    unfold DraggableNode.onDragMove
    by_cases hb : n.isDragging
    · simp [hb]
    · simp [hb, hn]
  | mouseupDrag i =>
    exact modifyIdx_forall c.nodes i _ h (fun n hn => hn)
  | keydownSpace => exact h
  | keyupSpace => exact h
  | pointerdown g =>
    intro n hn
    apply h
    by_cases hb : c.isSpacebarDown <;>
      simpa [step, PannableCanvas.pointerdown, hb] using hn
  | pointermove g =>
    intro n hn
    apply h
    by_cases hb : c.isPanning <;>
      simpa [step, PannableCanvas.pointermove, hb] using hn
  | pointerup => exact h
  | frameTick =>
    intro n hn
    rcases List.mem_map.mp hn with ⟨m, hm, rfl⟩
    exact h m hm
  | createNode a b u v =>
    intro n hn
    rcases List.mem_append.mp hn with h1 | h2
    · exact h n h1
    · rw [List.mem_singleton] at h2
      subst h2
      rfl

/-- C10: along every event sequence (construction, drag moves, drag end,
pans, frame updates), the anchor marker's position stays exactly equal to the
stored world position of its node. -/
theorem marker_always_tracks_world (c : PannableCanvas) (ops : List Op)
    (h : MarkerInv c) : MarkerInv (run c ops) := by
  induction ops generalizing c with
  | nil => exact h
  | cons op rest ih => exact ih (step c op) (step_preserves_MarkerInv c op h)

/-- Witness for C10 on a concrete sequence with a clamped drag and a pan. -/
theorem marker_always_tracks_world_witness :
    MarkerInv (run initialCanvas
      [Op.createNode 100 75 100 40, Op.mousedownOn 0 ⟨100, 75⟩,
       Op.mousemoveDrag 0 ⟨10000, 75⟩, Op.mouseupDrag 0, Op.keydownSpace,
       Op.pointerdown ⟨0, 0⟩, Op.pointermove ⟨50, 20⟩, Op.frameTick]) :=
  marker_always_tracks_world initialCanvas _
    (fun n hn => absurd hn (List.not_mem_nil n))
